import Mathlib

/-!
Verification of the data-preparation pipeline in `data_preparation.py`
(Starbucks capstone project): `clean_data`, `merge_data`, `segment_data`
and `preprocess_data`, shallowly embedded over explicit row types.

Dataframes are embedded as lists of rows; the heterogeneous `value`
mapping of a raw transcript row is an association list from string keys
to Python-like values, so that Python truthiness (`a or b`) and
`dict.get` defaults can be modelled exactly.
-/

/-- A Python value as it occurs in the transcript `value` mapping:
a string, a number, or `None`.  Amounts are modelled as integers:
the pipeline only moves them around, it never computes with them. -/
inductive PyVal where
  | pstr : String → PyVal
  | pint : Int → PyVal
  | pnone : PyVal
deriving DecidableEq, Repr

/-- Python truthiness of a `PyVal`: empty string, zero and `None` are falsy. -/
def PyVal.truthy : PyVal → Bool
  | .pstr s => s ≠ ""
  | .pint n => n ≠ 0
  | .pnone => false

/-- Python `a or b`: returns `a` when `a` is truthy, else `b`. -/
def pyOr (a b : PyVal) : PyVal := if a.truthy then a else b

/-- A `value` mapping: keys are distinct in a Python dict, modelled as an
association list read by first match. -/
abbrev ValueMap : Type := List (String × PyVal)

/-- `x.get(k)` on a Python dict: the mapped value when the key is present,
`None` otherwise. -/
def ValueMap.get (x : ValueMap) (k : String) : PyVal :=
  (List.lookup k x).getD .pnone

/-- `x.get(k, d)` on a Python dict with an explicit default. -/
def ValueMap.getDefault (x : ValueMap) (k : String) (d : PyVal) : PyVal :=
  (List.lookup k x).getD d

/-- A profile row: `{id, age, gender, income, became_member_on}`.
`age` is optional so that a null age can be represented. -/
structure ProfileRow where
  id : String
  age : Option Int
  gender : Option String
  income : Option Int
  became_member_on : Nat
deriving DecidableEq, Repr

/-- A raw transcript row: `{person, event, time, value}`. -/
structure TranscriptRow where
  person : String
  event : String
  time : Nat
  value : ValueMap
deriving DecidableEq, Repr

/-- A cleaned transcript row: `value` replaced by the two extracted
scalar fields `offer_id` and `transaction_amount`. -/
structure CleanedTranscriptRow where
  person : String
  event : String
  time : Nat
  offer_id : PyVal
  transaction_amount : PyVal
deriving DecidableEq, Repr

/-- Line 51 of `data_preparation.py`:
`x.get('offer id') or x.get('offer_id')`. -/
def offerIdOf (x : ValueMap) : PyVal :=
  pyOr (x.get "offer id") (x.get "offer_id")

/-- Line 52 of `data_preparation.py`: `x.get('amount', 0)`. -/
def amountOf (x : ValueMap) : PyVal :=
  x.getDefault "amount" (.pint 0)

/-- The per-row effect of lines 51-53 on a transcript row, as seen in the
returned `transcript_cleaned` (the `value` column is dropped there). -/
def cleanTranscriptRow (r : TranscriptRow) : CleanedTranscriptRow :=
  { person := r.person, event := r.event, time := r.time,
    offer_id := offerIdOf r.value, transaction_amount := amountOf r.value }

/-- `clean_data` (lines 40-54): the returned pair
`(profile_cleaned, transcript_cleaned)`.  The profile is filtered to
rows with age ≠ 118 (a null age is ≠ 118 under pandas semantics, so it
is retained); every transcript row is flattened. -/
def clean_data (profile : List ProfileRow) (transcript : List TranscriptRow) :
    List ProfileRow × List CleanedTranscriptRow :=
  (profile.filter (fun r => r.age ≠ some 118),
   transcript.map cleanTranscriptRow)

/-- The caller-visible state of a transcript row after `clean_data`
returns: lines 51-52 assign the two new columns in place on the caller's
frame, and `value` is only dropped on the returned copy, so the caller's
row keeps `value` and gains both extracted fields. -/
structure TranscriptRowAfterClean where
  person : String
  event : String
  time : Nat
  value : ValueMap
  offer_id : PyVal
  transaction_amount : PyVal
deriving DecidableEq, Repr

/-- The caller's transcript argument as it stands after `clean_data`
returns (the in-place column assignments of lines 51-52 applied). -/
def callerTranscriptAfterClean (transcript : List TranscriptRow) :
    List TranscriptRowAfterClean :=
  transcript.map (fun r =>
    { person := r.person, event := r.event, time := r.time, value := r.value,
      offer_id := offerIdOf r.value, transaction_amount := amountOf r.value })

/-- The caller's profile argument after `clean_data` returns: line 50
only reads `profile`, assigning the filtered view to a fresh name, so
the caller's profile is untouched. -/
def callerProfileAfterClean (profile : List ProfileRow) : List ProfileRow :=
  profile

/-- Assigning `df[c] = ...` at the schema level: the column is appended
when absent, overwritten in place (schema unchanged) when present. -/
def assignColumn (cols : List String) (c : String) : List String :=
  if c ∈ cols then cols else cols ++ [c]

/-- Schema of a raw transcript frame (`transcript.json` records). -/
def transcriptRawCols : List String := ["person", "event", "time", "value"]

/-- Schema of the caller's transcript frame after `clean_data` returns:
lines 51-52 assign `offer_id` and `transaction_amount` in place. -/
def callerTranscriptColsAfterClean (cols : List String) : List String :=
  assignColumn (assignColumn cols "offer_id") "transaction_amount"

/-- Schema of the returned `transcript_cleaned`: the caller schema plus
the two assignments, minus the dropped `value` column (line 53). -/
def cleanedTranscriptCols : List String :=
  (callerTranscriptColsAfterClean transcriptRawCols).filter (fun c => c ≠ "value")

/-- A portfolio row: `{id, offer_type, difficulty, reward, duration, channels}`. -/
structure PortfolioRow where
  id : String
  offer_type : String
  difficulty : Int
  reward : Int
  duration : Int
  channels : List String
deriving DecidableEq, Repr

/-- A row of the step-1 result: a transcript row joined with its
matching profile row. -/
structure Merged1Row where
  t : CleanedTranscriptRow
  p : ProfileRow
deriving DecidableEq, Repr

/-- A row of the final merged frame: the step-1 row, the portfolio row
when the offer matched (null-padded otherwise), and the `age_group`
column, absent (`none`) until `segment_data` assigns it. -/
structure MergedRow where
  t : CleanedTranscriptRow
  p : ProfileRow
  q : Option PortfolioRow
  age_group : Option String := none
deriving DecidableEq, Repr

/-- SQL/pandas equality on a join key: a null (`None`/NaN) key matches
nothing, and an offer id only matches a portfolio id when it is that
string. -/
def keyMatches (v : PyVal) (i : String) : Bool :=
  match v with
  | .pstr s => s == i
  | _ => false

/-- Line 67: `pd.merge(transcript_cleaned, profile_cleaned,
left_on='person', right_on='id', how='inner')`.  Pandas preserves the
order of the left frame; each transcript row is paired with every
profile row whose `id` equals its `person`, and is dropped when there
is none. -/
def innerJoinTP (transcript_cleaned : List CleanedTranscriptRow)
    (profile_cleaned : List ProfileRow) : List Merged1Row :=
  transcript_cleaned.flatMap (fun tr =>
    (profile_cleaned.filter (fun pr => pr.id == tr.person)).map
      (fun pr => { t := tr, p := pr }))

/-- One row's contribution to the left join of line 68: the row paired
with each matching portfolio row, or null-padded when none matches. -/
def leftMatchRow (r : Merged1Row) (portfolio : List PortfolioRow) :
    List MergedRow :=
  let ms := portfolio.filter (fun po => keyMatches r.t.offer_id po.id)
  if ms.isEmpty then [{ t := r.t, p := r.p, q := none }]
  else ms.map (fun po => { t := r.t, p := r.p, q := some po })

/-- Line 68: `pd.merge(merged_data, portfolio, left_on='offer_id',
right_on='id', how='left')`.  Every left row is retained: paired with
each matching portfolio row, or null-padded when none matches. -/
def leftJoinPortfolio (m : List Merged1Row) (portfolio : List PortfolioRow) :
    List MergedRow :=
  m.flatMap (fun r => leftMatchRow r portfolio)

/-- `merge_data` (lines 56-69): the two joins in order. -/
def merge_data (transcript_cleaned : List CleanedTranscriptRow)
    (profile_cleaned : List ProfileRow) (portfolio : List PortfolioRow) :
    List MergedRow :=
  leftJoinPortfolio (innerJoinTP transcript_cleaned profile_cleaned) portfolio

/-- `pd.cut(x, bins, labels, right=False)` on one value: left-closed
right-open bins; a value outside every bin gets NaN (`none`). -/
def cutRightFalse : List Int → List String → Int → Option String
  | lo :: hi :: bs, lab :: ls, x =>
      if lo ≤ x ∧ x < hi then some lab else cutRightFalse (hi :: bs) ls x
  | _, _, _ => none

/-- Line 80 of `data_preparation.py`. -/
def ageBins : List Int := [18, 35, 60, 100]

/-- Line 81 of `data_preparation.py`. -/
def ageLabels : List String := ["Young", "Middle-aged", "Senior"]

/-- The `age_group` value `pd.cut` assigns to one age: a null age maps
to NaN (`none`). -/
def ageGroupOf (age : Option Int) : Option String :=
  age.bind (cutRightFalse ageBins ageLabels)

/-- `segment_data` (lines 71-83): assigns the `age_group` column from
the `age` column, overwriting any existing `age_group`. -/
def segment_data (merged_data : List MergedRow) : List MergedRow :=
  merged_data.map (fun r => { r with age_group := ageGroupOf r.p.age })

/-- `preprocess_data` (lines 86-106): clean, merge, segment. -/
def preprocess_data (portfolio : List PortfolioRow) (profile : List ProfileRow)
    (transcript : List TranscriptRow) : List MergedRow :=
  let cleaned := clean_data profile transcript
  segment_data (merge_data cleaned.2 cleaned.1 portfolio)

/-- Schema of a profile frame (`profile.json` records). -/
def profileCols : List String :=
  ["id", "age", "gender", "income", "became_member_on"]

/-- Schema of a portfolio frame (`portfolio.json` records). -/
def portfolioCols : List String :=
  ["id", "offer_type", "difficulty", "reward", "duration", "channels"]

/-- Output schema of `pd.merge(left, right, left_on, right_on, ...)`:
all left columns then all right columns, with every column name present
on both sides disambiguated by the default suffixes `_x` (left) and
`_y` (right). -/
def mergeCols (left right : List String) : List String :=
  left.map (fun c => if c ∈ right then c ++ "_x" else c) ++
  right.map (fun c => if c ∈ left then c ++ "_y" else c)

/-- Schema after the step-1 inner join (line 67). -/
def step1Cols : List String := mergeCols cleanedTranscriptCols profileCols

/-- Schema after the step-2 left join (line 68). -/
def mergedCols : List String := mergeCols step1Cols portfolioCols

/-! Sample rows used by witnesses, following the end-to-end scenario of
the specification. -/

def profileU2 : ProfileRow :=
  { id := "U2", age := some 40, gender := some "F", income := some 50000,
    became_member_on := 20170101 }

def profileU1 : ProfileRow :=
  { id := "U1", age := some 118, gender := none, income := none,
    became_member_on := 20170102 }

def portfolioO1 : PortfolioRow :=
  { id := "O1", offer_type := "bogo", difficulty := 5, reward := 5,
    duration := 7, channels := ["web", "email"] }

def transcriptU2 : TranscriptRow :=
  { person := "U2", event := "offer received", time := 0,
    value := [("offer id", .pstr "O1")] }

def transcriptU1 : TranscriptRow :=
  { person := "U1", event := "transaction", time := 6,
    value := [("amount", .pint 5)] }

/-- A value mapping where both offer-id keys are present but the first
maps to a falsy value (the empty string). -/
def valueBothKeys : ValueMap := [("offer id", .pstr ""), ("offer_id", .pstr "X")]

def rowBothKeys : TranscriptRow :=
  { person := "U2", event := "offer received", time := 0, value := valueBothKeys }

/-- A transcript row whose `value` carries a negative amount. -/
def rowNegAmount : TranscriptRow :=
  { person := "U2", event := "transaction", time := 12,
    value := [("amount", .pint (-1))] }

/-- C1, counterexample: the claim says `offer_id` equals
`value["offer id"]` whenever that key is present, regardless of the
mapped value.  On a row whose `value` maps `"offer id"` to the empty
string and `"offer_id"` to `"X"`, line 51's Python `or` falls through
on the falsy first operand, so the cleaned row's `offer_id` is `"X"`,
not the empty string the present key maps to. -/
theorem offerId_key_presence_counterexample :
    List.lookup "offer id" rowBothKeys.value = some (PyVal.pstr "") ∧
    (cleanTranscriptRow rowBothKeys).offer_id = PyVal.pstr "X" ∧
    (cleanTranscriptRow rowBothKeys).offer_id ≠ PyVal.pstr "" := by decide

/-- C1, amended: the extraction is a truthiness preference, not a
key-presence preference: `offer_id` is `value["offer id"]` when that key
is present with a truthy value; when the key is absent or its value is
falsy, it is `value["offer_id"]` when present and `None` otherwise. -/
theorem offerId_truthiness_preference (x : ValueMap) :
    (∀ v, List.lookup "offer id" x = some v → v.truthy = true → offerIdOf x = v) ∧
    (∀ v, List.lookup "offer id" x = some v → v.truthy = false →
      offerIdOf x = (List.lookup "offer_id" x).getD PyVal.pnone) ∧
    (List.lookup "offer id" x = none →
      offerIdOf x = (List.lookup "offer_id" x).getD PyVal.pnone) := by
  refine ⟨fun v hv ht => ?_, fun v hv ht => ?_, fun hv => ?_⟩
  · simp [offerIdOf, pyOr, ValueMap.get, hv, ht]
  · simp [offerIdOf, pyOr, ValueMap.get, hv, ht]
  · simp [offerIdOf, pyOr, ValueMap.get, hv, PyVal.truthy]

/-- C1 witness: on `valueBothKeys` the falsy-first-key clause applies
and yields the second key's value. -/
theorem offerId_truthiness_preference_witness :
    offerIdOf valueBothKeys = (List.lookup "offer_id" valueBothKeys).getD PyVal.pnone :=
  (offerId_truthiness_preference valueBothKeys).2.1 (PyVal.pstr "") (by decide) (by decide)

/-- The original four transcript columns of a caller row after
`clean_data` (used to observe that they are untouched). -/
def originalFields (r : TranscriptRowAfterClean) : TranscriptRow :=
  { person := r.person, event := r.event, time := r.time, value := r.value }

/-- C2, counterexample: the claim says `clean_data` leaves the caller's
arguments unchanged, with no columns added.  Lines 51-52 assign
`offer_id` and `transaction_amount` in place on the caller's transcript
frame, so its schema after the call differs from the raw schema. -/
theorem cleanData_no_mutation_counterexample :
    callerTranscriptColsAfterClean transcriptRawCols =
      transcriptRawCols ++ ["offer_id", "transaction_amount"] ∧
    callerTranscriptColsAfterClean transcriptRawCols ≠ transcriptRawCols := by decide

/-- C2, amended: `clean_data` leaves the caller's profile untouched but
mutates the caller's transcript in place: it appends the two extracted
columns (keeping `value` and every original column and row as they
were); only the returned `transcript_cleaned` drops `value`. -/
theorem cleanData_mutation_effect (profile : List ProfileRow)
    (transcript : List TranscriptRow) :
    callerProfileAfterClean profile = profile ∧
    callerTranscriptColsAfterClean transcriptRawCols =
      transcriptRawCols ++ ["offer_id", "transaction_amount"] ∧
    (callerTranscriptAfterClean transcript).map originalFields = transcript ∧
    (callerTranscriptAfterClean transcript).map
      (fun r => (r.offer_id, r.transaction_amount)) =
      transcript.map (fun r => (offerIdOf r.value, amountOf r.value)) := by
  refine ⟨rfl, by decide, ?_, ?_⟩
  · rw [callerTranscriptAfterClean, List.map_map]
    exact List.map_id transcript
  · simp [callerTranscriptAfterClean, List.map_map, Function.comp]

/-- C7: `transaction_amount` is `value["amount"]` exactly when the key
is present and `0` otherwise, the `value` column is dropped from the
cleaned transcript schema, and the extraction of both optional keys is
total — a mapping with neither offer key still yields a (null) result
rather than an error. -/
theorem transactionAmount_extraction (r : TranscriptRow) :
    (∀ v, List.lookup "amount" r.value = some v →
      (cleanTranscriptRow r).transaction_amount = v) ∧
    (List.lookup "amount" r.value = none →
      (cleanTranscriptRow r).transaction_amount = PyVal.pint 0) ∧
    (List.lookup "offer id" r.value = none → List.lookup "offer_id" r.value = none →
      (cleanTranscriptRow r).offer_id = PyVal.pnone) ∧
    "value" ∉ cleanedTranscriptCols := by
  refine ⟨fun v hv => ?_, fun hv => ?_, fun h1 h2 => ?_, by decide⟩
  · simp [cleanTranscriptRow, amountOf, ValueMap.getDefault, hv]
  · simp [cleanTranscriptRow, amountOf, ValueMap.getDefault, hv]
  · simp [cleanTranscriptRow, offerIdOf, pyOr, ValueMap.get, h1, h2, PyVal.truthy]

/-- C7 witness: a transaction row with `amount = 5` keeps that amount. -/
theorem transactionAmount_extraction_witness :
    (cleanTranscriptRow transcriptU1).transaction_amount = PyVal.pint 5 :=
  (transactionAmount_extraction transcriptU1).1 (PyVal.pint 5) (by decide)

/-- C8, counterexample: the claim says `transaction_amount ≥ 0` whenever
the amount key existed.  Line 52 copies `value["amount"]` unvalidated,
so a raw row carrying `amount = -1` yields a negative cleaned amount. -/
theorem transactionAmount_nonneg_counterexample :
    List.lookup "amount" rowNegAmount.value = some (PyVal.pint (-1)) ∧
    (cleanTranscriptRow rowNegAmount).transaction_amount = PyVal.pint (-1) ∧
    ¬ (0 : Int) ≤ -1 := by decide

/-- C8, amended: post-clean, `transaction_amount` equals the raw amount
whenever the amount key existed — so it is nonnegative exactly when the
raw amount was — and is exactly `0` when the key did not exist. -/
theorem transactionAmount_passthrough (r : TranscriptRow) :
    (∀ n : Int, List.lookup "amount" r.value = some (PyVal.pint n) →
      (cleanTranscriptRow r).transaction_amount = PyVal.pint n ∧
      (0 ≤ n → ∃ m : Int, (cleanTranscriptRow r).transaction_amount = PyVal.pint m
        ∧ 0 ≤ m)) ∧
    (List.lookup "amount" r.value = none →
      (cleanTranscriptRow r).transaction_amount = PyVal.pint 0) := by
  refine ⟨fun n hn => ⟨?_, fun h0 => ⟨n, ?_, h0⟩⟩, fun hn => ?_⟩ <;>
    simp [cleanTranscriptRow, amountOf, ValueMap.getDefault, hn]

/-- C8 witness: the nonnegative amount `5` passes through nonnegative. -/
theorem transactionAmount_passthrough_witness :
    (cleanTranscriptRow transcriptU1).transaction_amount = PyVal.pint 5 :=
  ((transactionAmount_passthrough transcriptU1).1 5 (by decide)).1

/-- C5: the cleaned profile is exactly the filter of the input to rows
with age ≠ 118: a sublist of the input (so order is preserved, no row is
added and rows pass through unchanged), containing every input row whose
age is not 118, and containing no row with age 118. -/
theorem cleanData_profile_filter (profile : List ProfileRow)
    (transcript : List TranscriptRow) :
    (clean_data profile transcript).1 = profile.filter (fun r => r.age ≠ some 118) ∧
    List.Sublist (clean_data profile transcript).1 profile ∧
    (∀ r ∈ profile, r.age ≠ some 118 → r ∈ (clean_data profile transcript).1) ∧
    (∀ r ∈ (clean_data profile transcript).1, r ∈ profile ∧ r.age ≠ some 118) := by
  refine ⟨rfl, List.filter_sublist profile, fun r hr h => ?_, fun r hr => ?_⟩
  · simp only [clean_data, List.mem_filter, decide_eq_true_eq]
    exact ⟨hr, h⟩
  · simp only [clean_data, List.mem_filter, decide_eq_true_eq] at hr
    exact hr

/-- C5 witness: in the sample profile table, the row with the sentinel
age 118 is dropped and the age-40 row is retained. -/
theorem cleanData_profile_filter_witness :
    profileU2 ∈ (clean_data [profileU1, profileU2] []).1 :=
  (cleanData_profile_filter [profileU1, profileU2] []).2.2.1 profileU2
    (by decide) (by decide)

lemma ageGroupOf_young (a : Int) (h1 : 18 ≤ a) (h2 : a < 35) :
    ageGroupOf (some a) = some "Young" := by
  show cutRightFalse ageBins ageLabels a = some "Young"
  rw [ageBins, ageLabels]
  simp only [cutRightFalse]
  rw [if_pos ⟨h1, h2⟩]

lemma ageGroupOf_middle (a : Int) (h1 : 35 ≤ a) (h2 : a < 60) :
    ageGroupOf (some a) = some "Middle-aged" := by
  show cutRightFalse ageBins ageLabels a = some "Middle-aged"
  rw [ageBins, ageLabels]
  simp only [cutRightFalse]
  rw [if_neg (by omega), if_pos ⟨h1, h2⟩]

lemma ageGroupOf_senior (a : Int) (h1 : 60 ≤ a) (h2 : a < 100) :
    ageGroupOf (some a) = some "Senior" := by
  show cutRightFalse ageBins ageLabels a = some "Senior"
  rw [ageBins, ageLabels]
  simp only [cutRightFalse]
  rw [if_neg (by omega), if_neg (by omega), if_pos ⟨h1, h2⟩]

lemma ageGroupOf_outside (a : Int) (h : a < 18 ∨ 100 ≤ a) :
    ageGroupOf (some a) = none := by
  show cutRightFalse ageBins ageLabels a = none
  rw [ageBins, ageLabels]
  simp only [cutRightFalse]
  rw [if_neg (by omega), if_neg (by omega), if_neg (by omega)]

/-- C4: `segment_data` assigns `age_group` as a pure function of `age`,
with half-open bins [18, 35) ↦ Young, [35, 60) ↦ Middle-aged,
[60, 100) ↦ Senior, ages outside [18, 100) and null ages mapping to the
null category, and the boundary cases 18, 34, 35, 59, 60, 99, 17, 100
behaving as listed. -/
theorem segmentData_age_binning (d : List MergedRow) (r : MergedRow)
    (hr : r ∈ segment_data d) :
    r.age_group = ageGroupOf r.p.age ∧
    (∀ a : Int, 18 ≤ a → a < 35 → ageGroupOf (some a) = some "Young") ∧
    (∀ a : Int, 35 ≤ a → a < 60 → ageGroupOf (some a) = some "Middle-aged") ∧
    (∀ a : Int, 60 ≤ a → a < 100 → ageGroupOf (some a) = some "Senior") ∧
    (∀ a : Int, a < 18 ∨ 100 ≤ a → ageGroupOf (some a) = none) ∧
    ageGroupOf none = none ∧
    ageGroupOf (some 18) = some "Young" ∧ ageGroupOf (some 34) = some "Young" ∧
    ageGroupOf (some 35) = some "Middle-aged" ∧
    ageGroupOf (some 59) = some "Middle-aged" ∧
    ageGroupOf (some 60) = some "Senior" ∧ ageGroupOf (some 99) = some "Senior" ∧
    ageGroupOf (some 17) = none ∧ ageGroupOf (some 100) = none := by
  obtain ⟨s, _, rfl⟩ := List.mem_map.mp hr
  exact ⟨rfl, ageGroupOf_young, ageGroupOf_middle, ageGroupOf_senior,
    ageGroupOf_outside, rfl, by decide, by decide, by decide, by decide,
    by decide, by decide, by decide, by decide⟩

/-- The sample merged row for the age-40 user, before segmentation. -/
def mergedU2 : MergedRow :=
  { t := cleanTranscriptRow transcriptU2, p := profileU2, q := some portfolioO1 }

/-- The same row after segmentation (age 40 falls in [35, 60)). -/
def segmentedU2 : MergedRow :=
  { mergedU2 with age_group := some "Middle-aged" }

/-- C4 witness: segmenting the sample merged table assigns the age-40
row the Middle-aged group. -/
theorem segmentData_age_binning_witness :
    segmentedU2.age_group = ageGroupOf segmentedU2.p.age :=
  (segmentData_age_binning [mergedU2] segmentedU2 (by decide)).1

/-- C9: `segment_data` applied to its own output (the `age` column
unchanged) overwrites `age_group` with the same values, so the
twice-segmented table equals the once-segmented table. -/
theorem segmentData_idempotent (d : List MergedRow) :
    segment_data (segment_data d) = segment_data d := by
  rw [segment_data, segment_data, List.map_map]
  rfl

/-- C10: in `merge_data`'s schema, the step-1 inner join renames
nothing (the cleaned transcript and the profile share no column name),
`id` is the only column the step-1 result shares with the portfolio,
and the step-2 join disambiguates it with the pandas default suffixes:
the profile's identifier becomes `id_x` and the portfolio's `id_y`,
with no unsuffixed `id` remaining. -/
theorem mergeData_schema_suffixes :
    step1Cols = cleanedTranscriptCols ++ profileCols ∧
    (∀ c ∈ cleanedTranscriptCols, c ∉ profileCols) ∧
    step1Cols.filter (fun c => c ∈ portfolioCols) = ["id"] ∧
    "id_x" ∈ mergedCols ∧ "id_y" ∈ mergedCols ∧ "id" ∉ mergedCols ∧
    mergedCols = ["person", "event", "time", "offer_id", "transaction_amount",
      "id_x", "age", "gender", "income", "became_member_on",
      "id_y", "offer_type", "difficulty", "reward", "duration", "channels"] := by
  decide

lemma length_filter_le_one {α β : Type} [DecidableEq β] (key : α → β)
    (f : α → Bool) (hf : ∀ x y, f x = true → f y = true → key x = key y) :
    ∀ l : List α, (l.map key).Nodup → (l.filter f).length ≤ 1 := by
  intro l
  induction l with
  | nil => simp
  | cons a l ih =>
    intro h
    rw [List.map_cons, List.nodup_cons] at h
    by_cases hk : f a = true
    · rw [List.filter_cons_of_pos hk]
      have hnil : l.filter f = [] := by
        rw [List.filter_eq_nil_iff]
        intro x hx hfx
        exact h.1 (by rw [hf a x hk (by simpa using hfx)]
                      exact List.mem_map_of_mem key hx)
      simp [hnil]
    · rw [List.filter_cons_of_neg (by simpa using hk)]
      exact ih h.2

lemma length_flatMap_le {α β : Type} (f : α → List β)
    (h : ∀ a, (f a).length ≤ 1) :
    ∀ l : List α, (l.flatMap f).length ≤ l.length := by
  intro l
  induction l with
  | nil => simp
  | cons a l ih =>
    rw [List.flatMap_cons, List.length_append, List.length_cons]
    have := h a
    omega

lemma length_flatMap_eq {α β : Type} (f : α → List β)
    (h : ∀ a, (f a).length = 1) :
    ∀ l : List α, (l.flatMap f).length = l.length := by
  intro l
  induction l with
  | nil => simp
  | cons a l ih =>
    rw [List.flatMap_cons, List.length_append, List.length_cons, h a, ih]
    omega

lemma keyMatches_inj (v : PyVal) (x y : PortfolioRow)
    (hx : keyMatches v x.id = true) (hy : keyMatches v y.id = true) :
    x.id = y.id := by
  cases v with
  | pstr s =>
    simp only [keyMatches, beq_iff_eq] at hx hy
    rw [← hx, ← hy]
  | pint n => simp [keyMatches] at hx
  | pnone => simp [keyMatches] at hx

lemma leftMatchRow_length (r : Merged1Row) (q : List PortfolioRow)
    (hq : (q.map PortfolioRow.id).Nodup) :
    (leftMatchRow r q).length = 1 := by
  have h1 : (q.filter (fun po => keyMatches r.t.offer_id po.id)).length ≤ 1 :=
    length_filter_le_one PortfolioRow.id _ (keyMatches_inj r.t.offer_id) q hq
  by_cases he : (q.filter (fun po => keyMatches r.t.offer_id po.id)).isEmpty = true
  · simp [leftMatchRow, he]
  · have hne : q.filter (fun po => keyMatches r.t.offer_id po.id) ≠ [] := by
      simpa [List.isEmpty_iff] using he
    have h2 := List.length_pos.mpr hne
    simp only [leftMatchRow, he, if_false, Bool.false_eq_true, List.length_map]
    omega

/-- C3: with the profile and portfolio identifiers unique (each table's
`id` is declared a unique identifier in the data model), the step-1
inner join of `merge_data` produces at most one row per transcript row,
and the step-2 left join leaves the row count unchanged. -/
theorem mergeData_row_counts (t : List CleanedTranscriptRow)
    (p : List ProfileRow) (q : List PortfolioRow)
    (hp : (p.map ProfileRow.id).Nodup) (hq : (q.map PortfolioRow.id).Nodup) :
    (innerJoinTP t p).length ≤ t.length ∧
    (merge_data t p q).length = (innerJoinTP t p).length := by
  constructor
  · apply length_flatMap_le
    intro tr
    rw [List.length_map]
    apply length_filter_le_one ProfileRow.id _ ?_ p hp
    intro x y hx hy
    rw [beq_iff_eq] at hx hy
    rw [hx, hy]
  · apply length_flatMap_eq
    intro r
    exact leftMatchRow_length r q hq

/-- Sample cleaned tables for the witnesses: two transcript events, one
profile (the age-118 row already removed) and one portfolio entry. -/
def sampleCleanedT : List CleanedTranscriptRow :=
  [cleanTranscriptRow transcriptU1, cleanTranscriptRow transcriptU2]

def sampleProfiles : List ProfileRow := [profileU2]

def samplePortfolio : List PortfolioRow := [portfolioO1]

/-- C3 witness: on the sample tables the step-1 join has at most as many
rows as the transcript and the step-2 join preserves the count. -/
theorem mergeData_row_counts_witness :
    (innerJoinTP sampleCleanedT sampleProfiles).length ≤ sampleCleanedT.length ∧
    (merge_data sampleCleanedT sampleProfiles samplePortfolio).length =
      (innerJoinTP sampleCleanedT sampleProfiles).length :=
  mergeData_row_counts sampleCleanedT sampleProfiles samplePortfolio
    (by decide) (by decide)

/-- C6: `merge_data` is exactly the left join (on offer id) of the inner
join (on person id): a step-1 row exists precisely for each pair of a
transcript row and a profile row whose `id` equals its `person` (so
transcript rows with no matching profile are dropped); every step-1 row
whose offer id matches no portfolio id is retained null-padded, every
matching portfolio row yields a joined row, and a null offer id matches
no portfolio id. -/
theorem mergeData_two_joins (t : List CleanedTranscriptRow)
    (p : List ProfileRow) (q : List PortfolioRow) :
    merge_data t p q = leftJoinPortfolio (innerJoinTP t p) q ∧
    (∀ r : Merged1Row, r ∈ innerJoinTP t p ↔
      r.t ∈ t ∧ r.p ∈ p ∧ r.p.id = r.t.person) ∧
    (∀ r ∈ innerJoinTP t p, (∀ po ∈ q, keyMatches r.t.offer_id po.id = false) →
      ({ t := r.t, p := r.p, q := none } : MergedRow) ∈ merge_data t p q) ∧
    (∀ r ∈ innerJoinTP t p, ∀ po ∈ q, keyMatches r.t.offer_id po.id = true →
      ({ t := r.t, p := r.p, q := some po } : MergedRow) ∈ merge_data t p q) ∧
    (∀ i : String, keyMatches PyVal.pnone i = false) := by
  refine ⟨rfl, fun r => ?_, fun r hr hnone => ?_, fun r hr po hpo hm => ?_,
    fun i => rfl⟩
  · constructor
    · intro hr
      obtain ⟨tr, htr, hr2⟩ := List.mem_flatMap.mp hr
      obtain ⟨pr, hpr, rfl⟩ := List.mem_map.mp hr2
      have hmem := List.mem_filter.mp hpr
      exact ⟨htr, hmem.1, by simpa using hmem.2⟩
    · rintro ⟨ht, hp2, hid⟩
      apply List.mem_flatMap.mpr
      refine ⟨r.t, ht, ?_⟩
      apply List.mem_map.mpr
      exact ⟨r.p, List.mem_filter.mpr ⟨hp2, by simpa using hid⟩, rfl⟩
  · apply List.mem_flatMap.mpr
    refine ⟨r, hr, ?_⟩
    have hnil : q.filter (fun po => keyMatches r.t.offer_id po.id) = [] := by
      rw [List.filter_eq_nil_iff]
      intro po hpo
      simp [hnone po hpo]
    simp [leftMatchRow, hnil]
  · apply List.mem_flatMap.mpr
    refine ⟨r, hr, ?_⟩
    have hin : po ∈ q.filter (fun po2 => keyMatches r.t.offer_id po2.id) :=
      List.mem_filter.mpr ⟨hpo, hm⟩
    have hne : (q.filter (fun po2 => keyMatches r.t.offer_id po2.id)).isEmpty
        = false := by
      rcases List.ne_nil_of_mem hin with hnn
      simpa [List.isEmpty_iff] using hnn
    simp only [leftMatchRow, hne, Bool.false_eq_true, if_false]
    exact List.mem_map.mpr ⟨po, hin, rfl⟩

/-- C6 witness: on the sample tables, the offer-view event of user U2
joins its profile and its portfolio entry into the merged table. -/
theorem mergeData_two_joins_witness :
    mergedU2 ∈ merge_data sampleCleanedT sampleProfiles samplePortfolio :=
  (mergeData_two_joins sampleCleanedT sampleProfiles samplePortfolio).2.2.2.1
    { t := cleanTranscriptRow transcriptU2, p := profileU2 } (by decide)
    portfolioO1 (by decide) (by decide)
